import Mathlib

/-! # PetBook record gateway (main.go)

A shallow embedding of the four gin handlers of main.go (read, create, update,
delete), of verify, of the Pet struct with its struct tags, and of the routing
table set up in main.

The handlers talk to a MongoDB collection through the package-level variable
coll and to the JSON / BSON decoders of the standard library and the driver.
Both are outside the repository, so both are parameters of the embedding:

* `Codec M` holds the decoders; every decoder returns the value it leaves in
  the target variable together with the error it returns (the handlers discard
  that error);
* `Collection σ M` holds the collection methods as state-passing functions on
  a store state `σ`.

Every handler returns the HTTP response, the list of store calls it made (in
order, each with the error it produced, if any) and the final store state.
-/

namespace PetBook

/-! ## Data model -/

/-- The instant held by a time.Time: whole seconds and nanoseconds counted from
January 1, year 1, 00:00:00 UTC, which is the zero value. -/
structure Time where
  sec : Int
  nsec : Nat
deriving DecidableEq, Repr

/-- The method time.Time.IsZero: the zero instant. -/
def Time.IsZero (t : Time) : Bool := t.sec == 0 && t.nsec == 0

/-- The seconds from the zero instant to the Unix epoch, January 1, 1970. -/
def unixEpochSec : Int := 62135596800

/-- The BSON DateTime of an instant, as bson.Marshal writes a time.Time: whole
milliseconds since the Unix epoch, the digits below the millisecond dropped. -/
def Time.toDateTime (t : Time) : Int :=
  (t.sec - unixEpochSec) * 1000 + ((t.nsec / 1000000 : Nat) : Int)

/-- The instant of a BSON DateTime, as the driver decodes it into a
time.Time. -/
def Time.ofDateTime (ms : Int) : Time :=
  ⟨ms / 1000 + unixEpochSec, (ms % 1000).toNat * 1000000⟩

/-- The struct Pet of main.go (Height and Weight are int32; only their sign is
ever inspected). -/
structure Pet where
  Id : String
  Name : String
  Dob : Time
  OwnerName : String
  Species : String
  Height : Int
  Weight : Int
  FavoriteToy : String
  Breed : String
deriving DecidableEq, Repr

/-- The zero value of Pet, what `var p Pet` declares. -/
def Pet.zero : Pet := ⟨"", "", ⟨0, 0⟩, "", "", 0, 0, "", ""⟩

/-- A BSON value, as far as the Pet struct and an inserted identifier need. -/
inductive BVal where
  | str (s : String)
  | int32 (n : Int)
  | date (ms : Int)
  | oid (hex : String)
deriving DecidableEq, Repr

/-- An ordered BSON document (bson.D, or the bytes bson.Marshal produces). -/
abbrev BsonDoc := List (String × BVal)

/-- The request body as read by io.ReadAll. -/
abbrev Bytes := String

/-- One element of a marshalled struct field tagged omitempty. -/
def omitEmpty (empty : Bool) (key : String) (v : BVal) : BsonDoc :=
  if empty then [] else [(key, v)]

/-- The document bson.Marshal builds from a Pet, following the bson struct tags
of main.go: every field is omitempty; the key is the tag name when the tag
gives one (_id, owner_name, favorite_toy) and the lower-cased field name
otherwise. A date of birth is omitted when it is the zero instant and is
otherwise written as a DateTime, in whole milliseconds. -/
def bsonMarshal (p : Pet) : BsonDoc :=
  omitEmpty (p.Id == "") "_id" (.str p.Id) ++
  omitEmpty (p.Name == "") "name" (.str p.Name) ++
  omitEmpty p.Dob.IsZero "dob" (.date p.Dob.toDateTime) ++
  omitEmpty (p.OwnerName == "") "owner_name" (.str p.OwnerName) ++
  omitEmpty (p.Species == "") "species" (.str p.Species) ++
  omitEmpty (p.Height == 0) "height" (.int32 p.Height) ++
  omitEmpty (p.Weight == 0) "weight" (.int32 p.Weight) ++
  omitEmpty (p.FavoriteToy == "") "favorite_toy" (.str p.FavoriteToy) ++
  omitEmpty (p.Breed == "") "breed" (.str p.Breed)

/-! ## HTTP responses -/

/-- The struct mongo.DeleteResult. -/
structure DeleteResult where
  DeletedCount : Int
deriving DecidableEq, Repr

/-- The struct mongo.UpdateResult (the handler discards it). -/
structure UpdateResult where
  MatchedCount : Int
  ModifiedCount : Int
deriving DecidableEq, Repr

/-- The struct mongo.InsertOneResult. -/
structure InsertOneResult where
  InsertedID : BVal
deriving DecidableEq, Repr

/-- What a handler writes: c.String writes a text, c.JSON a value. -/
inductive Payload where
  | text (s : String)
  | pets (results : List Pet)
  | pet (p : Pet)
  | deleted (res : DeleteResult)
deriving DecidableEq, Repr

/-- An HTTP response: status code and body. -/
structure Response where
  status : Nat
  body : Payload
deriving DecidableEq, Repr

def StatusOK : Nat := 200
def StatusBadRequest : Nat := 400
def StatusInternalServerError : Nat := 500

/-! ## The external collaborators -/

/-- The decoders the handlers call. Each takes the body and the current value
of the target variable and returns the value left in the variable and the
returned error. -/
structure Codec (M : Type) where
  /-- Decoder json.Unmarshal(body, &p) -/
  jsonUnmarshal : Bytes → Pet → Pet × Option String
  /-- Decoder bson.UnmarshalExtJSON(body, true, &filter) for a bson.M -/
  unmarshalExtJSON : Bytes → M → M × Option String
  /-- Decoder bson.UnmarshalExtJSON(body, true, &b) for a []bson.M -/
  unmarshalExtJSONSlice : Bytes → List M → List M × Option String
  /-- Decoding of a found document into a Pet variable -/
  bsonDecode : BsonDoc → Pet → Pet × Option String

/-- A mongo.Cursor, as seen by the handlers: the outcome of cursor.All. -/
structure Cursor where
  All : Except String (List Pet)

/-- A mongo.SingleResult: the error of the find, or the document found. -/
abbrev SingleResult := Except String BsonDoc

/-- The method SingleResult.Decode(&p): a failed find returns its error and
leaves p alone; a found document is decoded into p. -/
def SingleResult.Decode {M : Type} (lib : Codec M) (sr : SingleResult) (p : Pet) :
    Pet × Option String :=
  match sr with
  | .error err => (p, some err)
  | .ok raw => lib.bsonDecode raw p

/-- The methods of mongo.Collection the handlers call, as functions of the
store state. -/
structure Collection (σ M : Type) where
  Find : σ → M → Except String Cursor × σ
  InsertOne : σ → BsonDoc → Except String InsertOneResult × σ
  FindOne : σ → BsonDoc → SingleResult × σ
  UpdateMany : σ → M → M → Except String UpdateResult × σ
  DeleteMany : σ → M → Except String DeleteResult × σ

/-- The store operations a handler can invoke, with their arguments. -/
inductive Op (M : Type) where
  | Find (filter : M)
  | All
  | InsertOne (document : BsonDoc)
  | FindOne (filter : BsonDoc)
  | UpdateMany (filter : M) (update : M)
  | DeleteMany (filter : M)

/-- One store call of a handler run: the operation and the error it gave. -/
structure StoreCall (M : Type) where
  op : Op M
  err : Option String

/-- The result of running a handler. -/
structure Outcome (σ M : Type) where
  resp : Response
  calls : List (StoreCall M)
  store : σ

/-! ## The handlers -/

/-- The function verify of main.go. -/
def verify (p : Pet) : String :=
  if p.Name == "" then "name"
  else if p.Dob.IsZero then "dob"
  else if p.OwnerName == "" then "owner_name"
  else if p.Species == "" then "species"
  else if p.Height ≤ 0 then "height"
  else if p.Weight ≤ 0 then "weight"
  else if p.FavoriteToy == "" then "favorite_toy"
  else ""

/-- The handler read of main.go. The zero value of a bson.M (the nil map) is
the default element of M. -/
def read {σ M : Type} [Inhabited M] (lib : Codec M) (coll : Collection σ M)
    (s : σ) (body : Bytes) : Outcome σ M :=
  let filter := (lib.unmarshalExtJSON body default).1
  match coll.Find s filter with
  | (.error err, s1) =>
    ⟨⟨StatusInternalServerError, .text err⟩, [⟨.Find filter, some err⟩], s1⟩
  | (.ok cursor, s1) =>
    match cursor.All with
    | .error err =>
      ⟨⟨StatusInternalServerError, .text err⟩,
        [⟨.Find filter, none⟩, ⟨.All, some err⟩], s1⟩
    | .ok results =>
      ⟨⟨StatusOK, .pets results⟩, [⟨.Find filter, none⟩, ⟨.All, none⟩], s1⟩

/-- The handler create of main.go. -/
def create {σ M : Type} (lib : Codec M) (coll : Collection σ M)
    (s : σ) (body : Bytes) : Outcome σ M :=
  let p := (lib.jsonUnmarshal body Pet.zero).1
  let check := verify p
  if check != "" then
    ⟨⟨StatusBadRequest, .text ("Missing or invalid field: " ++ check)⟩, [], s⟩
  else
    let p := if p.Species == "dog" && p.Breed == "" then { p with Breed := "unknown" } else p
    let query := bsonMarshal p
    match coll.InsertOne s query with
    | (.error err, s1) =>
      ⟨⟨StatusInternalServerError, .text err⟩, [⟨.InsertOne query, some err⟩], s1⟩
    | (.ok res, s1) =>
      let filter : BsonDoc := [("_id", res.InsertedID)]
      let found := coll.FindOne s1 filter
      let decoded := SingleResult.Decode lib found.1 p
      ⟨⟨StatusOK, .pet decoded.1⟩,
        [⟨.InsertOne query, none⟩, ⟨.FindOne filter, decoded.2⟩], found.2⟩

/-- The handler update of main.go. After the length test the two elements
b[0] and b[1] exist; the default element only fills the out-of-range case the
test excludes. -/
def update {σ M : Type} [Inhabited M] (lib : Codec M) (coll : Collection σ M)
    (s : σ) (body : Bytes) : Outcome σ M :=
  let b := (lib.unmarshalExtJSONSlice body []).1
  if b.length != 2 then
    ⟨⟨StatusBadRequest, .text "Invalid request."⟩, [], s⟩
  else
    let b0 := b.getD 0 default
    let b1 := b.getD 1 default
    match coll.UpdateMany s b0 b1 with
    | (.error err, s1) =>
      ⟨⟨StatusInternalServerError, .text err⟩, [⟨.UpdateMany b0 b1, some err⟩], s1⟩
    | (.ok _, s1) =>
      match coll.Find s1 b0 with
      | (.error err, s2) =>
        ⟨⟨StatusInternalServerError, .text err⟩,
          [⟨.UpdateMany b0 b1, none⟩, ⟨.Find b0, some err⟩], s2⟩
      | (.ok cursor, s2) =>
        match cursor.All with
        | .error err =>
          ⟨⟨StatusInternalServerError, .text err⟩,
            [⟨.UpdateMany b0 b1, none⟩, ⟨.Find b0, none⟩, ⟨.All, some err⟩], s2⟩
        | .ok results =>
          ⟨⟨StatusOK, .pets results⟩,
            [⟨.UpdateMany b0 b1, none⟩, ⟨.Find b0, none⟩, ⟨.All, none⟩], s2⟩

/-- The handler delete of main.go. -/
def delete {σ M : Type} [Inhabited M] (lib : Codec M) (coll : Collection σ M)
    (s : σ) (body : Bytes) : Outcome σ M :=
  let filter := (lib.unmarshalExtJSON body default).1
  match coll.DeleteMany s filter with
  | (.error err, s1) =>
    ⟨⟨StatusInternalServerError, .text err⟩, [⟨.DeleteMany filter, some err⟩], s1⟩
  | (.ok res, s1) =>
    ⟨⟨StatusOK, .deleted res⟩, [⟨.DeleteMany filter, none⟩], s1⟩

/-- The four operations routed on the path /pets. -/
inductive Method where
  | GET
  | POST
  | PATCH
  | DELETE
deriving DecidableEq, Repr

/-- The routing table of main: GET to read, POST to create, PATCH to update,
DELETE to delete. -/
def serve {σ M : Type} [Inhabited M] (lib : Codec M) (coll : Collection σ M)
    (m : Method) (s : σ) (body : Bytes) : Outcome σ M :=
  match m with
  | .GET => read lib coll s body
  | .POST => create lib coll s body
  | .PATCH => update lib coll s body
  | .DELETE => delete lib coll s body

/-! ## Concrete collaborators -/

/-- Decoding of one element of a found document into the Pet field its key
names (an ObjectID identifier is decoded as its hex string). -/
def setField (p : Pet) (kv : String × BVal) : Pet :=
  match kv with
  | ("_id", .str v) => { p with Id := v }
  | ("_id", .oid v) => { p with Id := v }
  | ("name", .str v) => { p with Name := v }
  | ("dob", .date v) => { p with Dob := Time.ofDateTime v }
  | ("owner_name", .str v) => { p with OwnerName := v }
  | ("species", .str v) => { p with Species := v }
  | ("height", .int32 v) => { p with Height := v }
  | ("weight", .int32 v) => { p with Weight := v }
  | ("favorite_toy", .str v) => { p with FavoriteToy := v }
  | ("breed", .str v) => { p with Breed := v }
  | _ => p

/-- A decoder of found documents: every element is decoded into its field. -/
def bsonUnmarshal (raw : BsonDoc) (p : Pet) : Pet × Option String :=
  (raw.foldl setField p, none)

/-- A codec given by three parsers. A body the parser rejects leaves the
target variable untouched and returns an error. -/
def codecOf {M : Type} (pet : Bytes → Option Pet) (doc : Bytes → Option M)
    (docs : Bytes → Option (List M)) : Codec M where
  jsonUnmarshal body p :=
    match pet body with
    | some q => (q, none)
    | none => (p, some "invalid character")
  unmarshalExtJSON body m :=
    match doc body with
    | some q => (q, none)
    | none => (m, some "invalid JSON input")
  unmarshalExtJSONSlice body b :=
    match docs body with
    | some q => (q, none)
    | none => (b, some "invalid JSON input")
  bsonDecode := bsonUnmarshal

/-- The text of an identifier value. -/
def idText : BVal → String
  | .str v => v
  | .oid v => v
  | _ => ""

/-- A model store: the collection is a list of records, a filter document is
read as a predicate on records and an update document as a function on
records. UpdateMany rewrites every record the filter matches, Find returns the
records the filter matches, DeleteMany removes them. InsertOne appends the
record, under the identifier of the document when it has one and under a fresh
one otherwise, and refuses an identifier already present. -/
def modelColl {M : Type} (matching : M → Pet → Bool) (applying : M → Pet → Pet) :
    Collection (List Pet) M where
  Find s filter := (.ok ⟨.ok (s.filter (matching filter))⟩, s)
  InsertOne s document :=
    let p := (bsonUnmarshal document Pet.zero).1
    let id : BVal := if p.Id == "" then .oid (String.replicate (s.length + 1) (Char.ofNat 97))
      else .str p.Id
    if s.any (fun r => r.Id == idText id) then
      (.error "E11000 duplicate key error", s)
    else
      (.ok ⟨id⟩, s ++ [{ p with Id := idText id }])
  FindOne s filter :=
    match filter with
    | [("_id", v)] =>
      match s.find? (fun r => r.Id == idText v) with
      | some r => (.ok (bsonMarshal r), s)
      | none => (.error "mongo: no documents in result", s)
    | _ => (.error "mongo: no documents in result", s)
  UpdateMany s filter update :=
    (.ok ⟨(s.filter (matching filter)).length, (s.filter (matching filter)).length⟩,
      s.map (fun r => if matching filter r then applying update r else r))
  DeleteMany s filter :=
    (.ok ⟨(s.filter (matching filter)).length⟩, s.filter (fun r => !matching filter r))

/-- The kinds of store call. -/
inductive OpKind where
  | Find
  | All
  | InsertOne
  | FindOne
  | UpdateMany
  | DeleteMany
deriving DecidableEq, Repr

/-- The kind of a store operation. -/
def Op.kind {M : Type} : Op M → OpKind
  | .Find _ => .Find
  | .All => .All
  | .InsertOne _ => .InsertOne
  | .FindOne _ => .FindOne
  | .UpdateMany _ _ => .UpdateMany
  | .DeleteMany _ => .DeleteMany

/-- A collection with an outage: the calls of the kinds that are down fail
with the given error and leave the store alone, the others go to the base
collection. -/
def outage {σ M : Type} (down : OpKind → Bool) (msg : String) (base : Collection σ M) :
    Collection σ M where
  Find s filter :=
    if down .Find then (.error msg, s)
    else if down .All then
      match base.Find s filter with
      | (.ok _, s1) => (.ok ⟨.error msg⟩, s1)
      | (.error err, s1) => (.error err, s1)
    else base.Find s filter
  InsertOne s document := if down .InsertOne then (.error msg, s) else base.InsertOne s document
  FindOne s filter := if down .FindOne then (.error msg, s) else base.FindOne s filter
  UpdateMany s filter update :=
    if down .UpdateMany then (.error msg, s) else base.UpdateMany s filter update
  DeleteMany s filter := if down .DeleteMany then (.error msg, s) else base.DeleteMany s filter

/-- The documents a handler run handed to InsertOne. -/
def insertedDocs {M : Type} (calls : List (StoreCall M)) : List BsonDoc :=
  calls.filterMap (fun c => match c.op with
    | .InsertOne document => some document
    | _ => none)

/-- A document carries name, owner_name, species, height, weight and
favorite_toy, each with a valid value. -/
def DocRequiredExceptDob (d : BsonDoc) : Prop :=
  (∃ v, d.lookup "name" = some (.str v) ∧ v ≠ "") ∧
  (∃ v, d.lookup "owner_name" = some (.str v) ∧ v ≠ "") ∧
  (∃ v, d.lookup "species" = some (.str v) ∧ v ≠ "") ∧
  (∃ n, d.lookup "height" = some (.int32 n) ∧ 0 < n) ∧
  (∃ n, d.lookup "weight" = some (.int32 n) ∧ 0 < n) ∧
  (∃ v, d.lookup "favorite_toy" = some (.str v) ∧ v ≠ "")

/-- A document carries a date of birth that is not the zero date. -/
def DocDobNonZero (d : BsonDoc) : Prop :=
  ∃ ms, d.lookup "dob" = some (.date ms) ∧ ms ≠ Time.toDateTime ⟨0, 0⟩

/-- A document carries every required field with a valid value. -/
def DocRequired (d : BsonDoc) : Prop :=
  DocRequiredExceptDob d ∧ DocDobNonZero d

/-- A valid dog without a breed, named Rex. -/
def rex : Pet := ⟨"", "Rex", ⟨63000000000, 0⟩, "Ana", "dog", 60, 30, "ball", ""⟩

/-- A valid cat without a breed, sent with an identifier of its own. -/
def tom : Pet := ⟨"client-chosen", "Tom", ⟨63000000000, 0⟩, "Bea", "cat", 25, 4, "mouse", ""⟩

/-- A valid cat sent with the breed "unknown" and a date of birth half a
millisecond after a whole second. -/
def kit : Pet := ⟨"", "Kit", ⟨63000000000, 500000⟩, "Cy", "cat", 23, 3, "yarn", "unknown"⟩

/-- Rex, born one nanosecond after the zero instant. -/
def rexYearOne : Pet := { rex with Dob := ⟨0, 1⟩ }

/-- The filter and update documents of the examples. -/
inductive Doc where
  | all
  | species (v : String)
  | setSpecies (v : String)
  | setBreed (v : String)
deriving DecidableEq, Repr

instance : Inhabited Doc := ⟨Doc.all⟩

/-- Reading of an example document as a predicate on records. -/
def Doc.matching : Doc → Pet → Bool
  | .species v, r => r.Species == v
  | _, _ => true

/-- Reading of an example document as a function on records. -/
def Doc.applying : Doc → Pet → Pet
  | .setSpecies v, r => { r with Species := v }
  | .setBreed v, r => { r with Breed := v }
  | _, r => r

/-- The example parser of Pet bodies. -/
def parsePet (body : Bytes) : Option Pet :=
  if body == "rex" then some rex
  else if body == "tom" then some tom
  else if body == "rex without dob" then some { rex with Dob := ⟨0, 0⟩ }
  else if body == "rex without dob and owner" then
    some { rex with Dob := ⟨0, 0⟩, OwnerName := "" }
  else if body == "empty object" then some Pet.zero
  else if body == "kit" then some kit
  else if body == "rex, born in year one" then some rexYearOne
  else if body == "rex without height" then some { rex with Height := 0 }
  else none

/-- The example parser of filter bodies. -/
def parseDoc (body : Bytes) : Option Doc :=
  if body == "all" then some .all
  else if body == "dogs" then some (.species "dog")
  else none

/-- The example parser of update bodies. -/
def parseDocs (body : Bytes) : Option (List Doc) :=
  if body == "dogs become wolves" then some [.species "dog", .setSpecies "wolf"]
  else if body == "dogs become mutts" then some [.species "dog", .setBreed "mutt"]
  else if body == "one element" then some [.all]
  else if body == "three elements" then some [.all, .all, .all]
  else if body == "empty array" then some []
  else none

/-- The example codec. -/
def exampleCodec : Codec Doc := codecOf parsePet parseDoc parseDocs

/-- A codec whose decoders fail part-way on some bodies: they return an error
and leave a partly filled value in the target variable. On a record whose
height is a text the other fields are filled; on a truncated filter or array
the elements read so far are kept. Other bodies go to the example codec. -/
def partialCodec : Codec Doc where
  jsonUnmarshal body p :=
    if body == "rex, height as text" then
      ({ rex with Height := 0 },
        some "json: cannot unmarshal string into Go struct field Pet.height of type int32")
    else exampleCodec.jsonUnmarshal body p
  unmarshalExtJSON body m :=
    if body == "dogs, truncated" then (.species "dog", some "invalid JSON input")
    else exampleCodec.unmarshalExtJSON body m
  unmarshalExtJSONSlice body b :=
    if body == "dogs become mutts, truncated" then
      ([.species "dog", .setBreed "mutt"], some "invalid JSON input")
    else exampleCodec.unmarshalExtJSONSlice body b
  bsonDecode := bsonUnmarshal

/-- The codec with the same decoders, none of which ever reports an error. -/
def Codec.silent {M : Type} (lib : Codec M) : Codec M where
  jsonUnmarshal body p := ((lib.jsonUnmarshal body p).1, none)
  unmarshalExtJSON body m := ((lib.unmarshalExtJSON body m).1, none)
  unmarshalExtJSONSlice body b := ((lib.unmarshalExtJSONSlice body b).1, none)
  bsonDecode := lib.bsonDecode

/-- The example store. -/
def exampleColl : Collection (List Pet) Doc := modelColl Doc.matching Doc.applying

/-! ## The validation order, as the specification words it -/

/-- The required fields in the order name, date of birth, owner_name, species,
height, weight, favorite_toy: the identifier of each field and whether the
field is invalid (a string empty, the date of birth zero, a number not
positive). -/
def requiredChecks (p : Pet) : List (String × Bool) :=
  [("name", p.Name == ""),
   ("dob", p.Dob.IsZero),
   ("owner_name", p.OwnerName == ""),
   ("species", p.Species == ""),
   ("height", decide (p.Height ≤ 0)),
   ("weight", decide (p.Weight ≤ 0)),
   ("favorite_toy", p.FavoriteToy == "")]

/-- The identifier of the first invalid required field, if there is one. -/
def firstInvalid (p : Pet) : Option String :=
  ((requiredChecks p).find? (fun c => c.2)).map (fun c => c.1)

/-- All required constraints of a record hold. -/
def Required (p : Pet) : Prop :=
  p.Name ≠ "" ∧ p.Dob.IsZero = false ∧ p.OwnerName ≠ "" ∧ p.Species ≠ "" ∧
  0 < p.Height ∧ 0 < p.Weight ∧ p.FavoriteToy ≠ ""

instance (p : Pet) : Decidable (Required p) := by
  unfold Required; infer_instance

/-- The record create builds from an accepted payload: the breed default. -/
def withBreedDefault (p : Pet) : Pet :=
  { p with Breed := if p.Species = "dog" ∧ p.Breed = "" then "unknown" else p.Breed }

/-! ## Helper lemmas -/

theorem verify_eq_firstInvalid (p : Pet) : verify p = (firstInvalid p).getD "" := by
  unfold verify firstInvalid requiredChecks
  cases h1 : (p.Name == "") <;> cases h2 : p.Dob.IsZero <;>
  cases h3 : (p.OwnerName == "") <;> cases h4 : (p.Species == "") <;>
  cases h5 : decide (p.Height ≤ 0) <;> cases h6 : decide (p.Weight ≤ 0) <;>
  cases h7 : (p.FavoriteToy == "") <;>
  simp only [decide_eq_true_eq, decide_eq_false_iff_not] at h5 h6 <;>
  simp [h5, h6, List.find?]

theorem firstInvalid_ne_empty (p : Pet) (f : String) (h : firstInvalid p = some f) :
    f ≠ "" := by
  unfold firstInvalid requiredChecks at h
  revert h
  cases (p.Name == "") <;> cases p.Dob.IsZero <;>
  cases (p.OwnerName == "") <;> cases (p.Species == "") <;>
  cases decide (p.Height ≤ 0) <;> cases decide (p.Weight ≤ 0) <;>
  cases (p.FavoriteToy == "") <;>
  simp [List.find?] <;> intro h <;> subst h <;> decide

theorem verify_eq_empty_iff (p : Pet) : verify p = "" ↔ Required p := by
  unfold verify Required
  cases h1 : (p.Name == "") <;> cases h2 : p.Dob.IsZero <;>
  cases h3 : (p.OwnerName == "") <;> cases h4 : (p.Species == "") <;>
  cases h5 : decide (p.Height ≤ 0) <;> cases h6 : decide (p.Weight ≤ 0) <;>
  cases h7 : (p.FavoriteToy == "") <;>
  simp only [decide_eq_true_eq, decide_eq_false_iff_not, beq_iff_eq, beq_eq_false_iff_ne,
    ne_eq] at h1 h3 h4 h5 h6 h7 <;>
  simp [h1, h3, h4, h5, h6, h7]
  all_goals omega

theorem create_reject {σ M : Type} (lib : Codec M) (coll : Collection σ M) (s : σ)
    (body : Bytes) (h : verify (lib.jsonUnmarshal body Pet.zero).1 ≠ "") :
    create lib coll s body =
      ⟨⟨StatusBadRequest, .text ("Missing or invalid field: " ++
          verify (lib.jsonUnmarshal body Pet.zero).1)⟩, [], s⟩ := by
  simp [create, h]

theorem breed_default_eq (p : Pet) :
    (if p.Species == "dog" && p.Breed == "" then { p with Breed := "unknown" } else p) =
      withBreedDefault p := by
  unfold withBreedDefault
  by_cases h : p.Species = "dog" ∧ p.Breed = ""
  · simp [h]
  · have h2 : (p.Species == "dog" && p.Breed == "") = false := by
      simpa [Bool.and_eq_false_iff] using h
    simp [h2, h]

theorem create_accept {σ M : Type} (lib : Codec M) (coll : Collection σ M) (s : σ)
    (body : Bytes) (h : verify (lib.jsonUnmarshal body Pet.zero).1 = "") :
    create lib coll s body =
      (let p := withBreedDefault (lib.jsonUnmarshal body Pet.zero).1
       match coll.InsertOne s (bsonMarshal p) with
       | (.error err, s1) =>
         ⟨⟨StatusInternalServerError, .text err⟩, [⟨.InsertOne (bsonMarshal p), some err⟩], s1⟩
       | (.ok res, s1) =>
         ⟨⟨StatusOK, .pet (SingleResult.Decode lib (coll.FindOne s1 [("_id", res.InsertedID)]).1
              p).1⟩,
           [⟨.InsertOne (bsonMarshal p), none⟩,
            ⟨.FindOne [("_id", res.InsertedID)],
              (SingleResult.Decode lib (coll.FindOne s1 [("_id", res.InsertedID)]).1 p).2⟩],
           (coll.FindOne s1 [("_id", res.InsertedID)]).2⟩) := by
  simp only [create, h, bne_self_eq_false, Bool.false_eq_true, if_false, breed_default_eq]

theorem find_first_invalid (pre post : List (String × Bool)) (x : String × Bool)
    (hx : x.2 = true) (hpre : ∀ c ∈ pre, c.2 = false) :
    (pre ++ x :: post).find? (fun c => c.2) = some x := by
  induction pre with
  | nil => simp [List.find?, hx]
  | cons a pre ih =>
    have ha : a.2 = false := hpre a (List.mem_cons_self a pre)
    have ih2 := ih (fun c hc => hpre c (List.mem_cons_of_mem a hc))
    simp [List.find?, ha, ih2]

theorem firstInvalid_isSome_iff (p : Pet) :
    (∃ c ∈ requiredChecks p, c.2 = true) ↔ verify p ≠ "" := by
  rw [verify_eq_firstInvalid]
  constructor
  · rintro ⟨c, hc, hc2⟩
    have hsome : ((requiredChecks p).find? (fun c => c.2)).isSome = true :=
      List.find?_isSome.mpr ⟨c, hc, hc2⟩
    cases hf : (requiredChecks p).find? (fun c => c.2) with
    | none => simp [hf] at hsome
    | some x =>
      have h1 : firstInvalid p = some x.1 := by simp [firstInvalid, hf]
      rw [h1]
      exact firstInvalid_ne_empty p x.1 h1
  · intro h
    cases hf : (requiredChecks p).find? (fun c => c.2) with
    | none => simp [firstInvalid, hf] at h
    | some x =>
      exact ⟨x, List.mem_of_find?_eq_some hf, List.find?_some hf⟩

/-! ## Create: validation -/

/-- C1. Create responds 400 exactly when some required field is invalid, and
then the text is "Missing or invalid field: " followed by the identifier of
the first invalid field in the order name, date of birth, owner_name, species,
height, weight, favorite_toy: whenever a field of that list is invalid and
every field before it is valid, the response names that field. -/
theorem create_bad_request_iff_first_invalid {σ M : Type} (lib : Codec M)
    (coll : Collection σ M) (s : σ) (body : Bytes) :
    ((create lib coll s body).resp.status = StatusBadRequest ↔
      ∃ c ∈ requiredChecks (lib.jsonUnmarshal body Pet.zero).1, c.2 = true) ∧
    (∀ (pre post : List (String × Bool)) (field : String),
      requiredChecks (lib.jsonUnmarshal body Pet.zero).1 = pre ++ (field, true) :: post →
      (∀ c ∈ pre, c.2 = false) →
      (create lib coll s body).resp =
        ⟨StatusBadRequest, .text ("Missing or invalid field: " ++ field)⟩) := by
  constructor
  · rw [firstInvalid_isSome_iff]
    by_cases h : verify (lib.jsonUnmarshal body Pet.zero).1 = ""
    · simp only [h, ne_eq, not_true_eq_false, iff_false]
      rw [create_accept lib coll s body h]
      rcases hi : coll.InsertOne s
        (bsonMarshal (withBreedDefault (lib.jsonUnmarshal body Pet.zero).1)) with ⟨r, s1⟩
      cases r <;> simp [hi, StatusBadRequest, StatusInternalServerError, StatusOK]
    · rw [create_reject lib coll s body h]
      simp [h]
  · intro pre post field hsplit hpre
    have hf : firstInvalid (lib.jsonUnmarshal body Pet.zero).1 = some field := by
      unfold firstInvalid
      rw [hsplit, find_first_invalid pre post (field, true) rfl hpre]
      rfl
    have hv : verify (lib.jsonUnmarshal body Pet.zero).1 = field := by
      rw [verify_eq_firstInvalid, hf]; rfl
    have hne : verify (lib.jsonUnmarshal body Pet.zero).1 ≠ "" := by
      rw [hv]; exact firstInvalid_ne_empty _ field hf
    rw [create_reject lib coll s body hne, hv]

/-- C1, at a payload whose date of birth and owner name are both missing: the
response names the date of birth, the earlier of the two. -/
theorem create_bad_request_iff_first_invalid_witness :
    (create exampleCodec exampleColl [] "rex without dob and owner").resp =
      ⟨400, .text "Missing or invalid field: dob"⟩ :=
  (create_bad_request_iff_first_invalid exampleCodec exampleColl []
    "rex without dob and owner").2 [("name", false)]
    [("owner_name", true), ("species", false), ("height", false), ("weight", false),
     ("favorite_toy", false)] "dob" (by decide) (by decide)

/-- C9, refuted: for the payload of Rex with the date of birth unset, the text
of the 400 response is not the one naming date_of_birth. -/
theorem create_zero_dob_not_date_of_birth :
    (exampleCodec.jsonUnmarshal "rex without dob" Pet.zero).1.Name ≠ "" ∧
    (exampleCodec.jsonUnmarshal "rex without dob" Pet.zero).1.Dob.IsZero = true ∧
    (create exampleCodec exampleColl [] "rex without dob").resp ≠
      ⟨400, .text "Missing or invalid field: date_of_birth"⟩ := by
  decide

/-- C9, amended: for every Create payload with a non-empty name and a zero
date of birth the response is 400 and its text names the field as dob, the
JSON name of the date of birth. -/
theorem create_zero_dob_names_dob {σ M : Type} (lib : Codec M) (coll : Collection σ M)
    (s : σ) (body : Bytes)
    (hname : (lib.jsonUnmarshal body Pet.zero).1.Name ≠ "")
    (hdob : (lib.jsonUnmarshal body Pet.zero).1.Dob.IsZero = true) :
    (create lib coll s body).resp =
      ⟨StatusBadRequest, .text "Missing or invalid field: dob"⟩ := by
  have hv : verify (lib.jsonUnmarshal body Pet.zero).1 = "dob" := by
    simp [verify, hname, hdob]
  have hne : verify (lib.jsonUnmarshal body Pet.zero).1 ≠ "" := by
    rw [hv]; decide
  rw [create_reject lib coll s body hne, hv]
  rfl

/-- C9 amended, at the payload of Rex with the date of birth unset. -/
theorem create_zero_dob_names_dob_witness :
    (create exampleCodec exampleColl [] "rex without dob").resp =
      ⟨400, .text "Missing or invalid field: dob"⟩ :=
  create_zero_dob_names_dob exampleCodec exampleColl [] "rex without dob"
    (by decide) (by decide)

/-! ## Create: the inserted record -/

theorem create_insertedDocs {σ M : Type} (lib : Codec M) (coll : Collection σ M) (s : σ)
    (body : Bytes) (h : verify (lib.jsonUnmarshal body Pet.zero).1 = "") :
    insertedDocs (create lib coll s body).calls =
      [bsonMarshal (withBreedDefault (lib.jsonUnmarshal body Pet.zero).1)] := by
  rw [create_accept lib coll s body h]
  rcases hi : coll.InsertOne s
    (bsonMarshal (withBreedDefault (lib.jsonUnmarshal body Pet.zero).1)) with ⟨r, s1⟩
  cases r <;> simp [hi, insertedDocs]

theorem create_insertedDocs_rejected {σ M : Type} (lib : Codec M) (coll : Collection σ M)
    (s : σ) (body : Bytes) (h : verify (lib.jsonUnmarshal body Pet.zero).1 ≠ "") :
    insertedDocs (create lib coll s body).calls = [] := by
  rw [create_reject lib coll s body h]
  rfl

theorem required_withBreedDefault (p : Pet) (h : Required p) :
    Required (withBreedDefault p) := h

theorem bsonMarshal_of_required (q : Pet) (h : Required q) :
    bsonMarshal q =
      (if q.Id = "" then [] else [("_id", .str q.Id)]) ++
      [("name", .str q.Name), ("dob", .date q.Dob.toDateTime),
       ("owner_name", .str q.OwnerName), ("species", .str q.Species),
       ("height", .int32 q.Height), ("weight", .int32 q.Weight),
       ("favorite_toy", .str q.FavoriteToy)] ++
      (if q.Breed = "" then [] else [("breed", .str q.Breed)]) := by
  obtain ⟨h1, h2, h3, h4, h5, h6, h7⟩ := h
  have h5z : q.Height ≠ 0 := by omega
  have h6z : q.Weight ≠ 0 := by omega
  unfold bsonMarshal omitEmpty
  by_cases hid : q.Id = "" <;> by_cases hb : q.Breed = "" <;>
    simp [h1, h2, h3, h4, h7, h5z, h6z, hid, hb]

theorem docRequiredExceptDob_bsonMarshal (q : Pet) (h : Required q) :
    DocRequiredExceptDob (bsonMarshal q) := by
  rw [bsonMarshal_of_required q h]
  obtain ⟨h1, h2, h3, h4, h5, h6, h7⟩ := h
  unfold DocRequiredExceptDob
  by_cases hid : q.Id = "" <;> by_cases hb : q.Breed = "" <;>
    simp [h1, h3, h4, h5, h6, h7, hid, hb, List.lookup]

theorem lookup_dob_bsonMarshal (q : Pet) (h : Required q) :
    List.lookup "dob" (bsonMarshal q) = some (.date q.Dob.toDateTime) := by
  rw [bsonMarshal_of_required q h]
  by_cases hid : q.Id = "" <;> simp [hid, List.lookup]

theorem toDateTime_ne_zero (t : Time) (h : t.sec ≠ 0 ∨ 1000000 ≤ t.nsec)
    (hn : t.nsec < 1000000000) : t.toDateTime ≠ Time.toDateTime ⟨0, 0⟩ := by
  unfold Time.toDateTime unixEpochSec
  simp only [Nat.zero_div]
  omega

theorem toDateTime_first_millisecond (t : Time) (hs : t.sec = 0) (hn : t.nsec < 1000000) :
    t.toDateTime = Time.toDateTime ⟨0, 0⟩ := by
  unfold Time.toDateTime unixEpochSec
  simp only [Nat.zero_div, hs]
  omega

/-- C2, refuted: Kit is a valid cat sent with the breed "unknown" and a date of
birth half a millisecond after a whole second. The inserted document has the
breed "unknown" although the payload is no dog with an empty breed, and its
date of birth is that of the whole second, not the one of the payload. -/
theorem create_keeps_unknown_breed_of_cat :
    Required (exampleCodec.jsonUnmarshal "kit" Pet.zero).1 ∧
    (exampleCodec.jsonUnmarshal "kit" Pet.zero).1.Species ≠ "dog" ∧
    (insertedDocs (create exampleCodec exampleColl [] "kit").calls).map
      (fun d => List.lookup "breed" d) = [some (.str "unknown")] ∧
    (exampleCodec.jsonUnmarshal "kit" Pet.zero).1.Dob ≠ ⟨63000000000, 0⟩ ∧
    (insertedDocs (create exampleCodec exampleColl [] "kit").calls).map
      (fun d => List.lookup "dob" d) = [some (.date (Time.toDateTime ⟨63000000000, 0⟩))] := by
  decide

/-- C2, amended. For every Create payload that passes validation, exactly one
document is handed to InsertOne, the marshalling of a record that equals the
payload in every field except possibly breed. The breed of that record is
"unknown" when the payload is a dog with an empty breed and the breed of the
payload otherwise; so it reads "unknown" exactly for a defaulted dog or a
payload that said "unknown" itself, and a valid non-dog payload without breed
keeps an empty breed. The document holds the identifier of the payload if it
has one, then name, date of birth in whole milliseconds, owner_name, species,
height, weight and favorite_toy of the payload, then the breed if it is not
empty. -/
theorem create_inserts_payload_with_breed_default {σ M : Type} (lib : Codec M)
    (coll : Collection σ M) (s : σ) (body : Bytes) (p : Pet)
    (hp : (lib.jsonUnmarshal body Pet.zero).1 = p) (hvalid : Required p) :
    ∃ q : Pet,
      insertedDocs (create lib coll s body).calls = [bsonMarshal q] ∧
      q.Id = p.Id ∧ q.Name = p.Name ∧ q.Dob = p.Dob ∧ q.OwnerName = p.OwnerName ∧
      q.Species = p.Species ∧ q.Height = p.Height ∧ q.Weight = p.Weight ∧
      q.FavoriteToy = p.FavoriteToy ∧
      q.Breed = (if p.Species = "dog" ∧ p.Breed = "" then "unknown" else p.Breed) ∧
      (q.Breed = "unknown" ↔ (p.Species = "dog" ∧ p.Breed = "") ∨ p.Breed = "unknown") ∧
      (p.Species ≠ "dog" → p.Breed = "" → q.Breed = "") ∧
      bsonMarshal q =
        (if p.Id = "" then [] else [("_id", .str p.Id)]) ++
        [("name", .str p.Name), ("dob", .date p.Dob.toDateTime),
         ("owner_name", .str p.OwnerName), ("species", .str p.Species),
         ("height", .int32 p.Height), ("weight", .int32 p.Weight),
         ("favorite_toy", .str p.FavoriteToy)] ++
        (if p.Species = "dog" ∧ p.Breed = "" then [("breed", .str "unknown")]
         else if p.Breed = "" then [] else [("breed", .str p.Breed)]) := by
  subst hp
  have hv := (verify_eq_empty_iff _).mpr hvalid
  refine ⟨withBreedDefault (lib.jsonUnmarshal body Pet.zero).1,
    create_insertedDocs lib coll s body hv, rfl, rfl, rfl, rfl, rfl, rfl, rfl, rfl, rfl,
    ?_, ?_, ?_⟩
  · unfold withBreedDefault
    by_cases hc : (lib.jsonUnmarshal body Pet.zero).1.Species = "dog" ∧
        (lib.jsonUnmarshal body Pet.zero).1.Breed = ""
    · simp [hc]
    · simp only [hc, if_false, false_or]
  · intro hs hb
    unfold withBreedDefault
    simp [hs, hb]
  · rw [bsonMarshal_of_required _ (required_withBreedDefault _ hvalid)]
    unfold withBreedDefault
    by_cases hc : (lib.jsonUnmarshal body Pet.zero).1.Species = "dog" ∧
        (lib.jsonUnmarshal body Pet.zero).1.Breed = ""
    · simp [hc]
    · simp only [hc, if_false]

/-- C2 amended, at the payload of Tom, a valid cat without a breed: the
inserted record has an empty breed. -/
theorem create_inserts_payload_with_breed_default_witness :
    ∃ q : Pet,
      insertedDocs (create exampleCodec exampleColl [] "tom").calls = [bsonMarshal q] ∧
      q.Id = "client-chosen" ∧ q.Name = "Tom" ∧ q.Dob = ⟨63000000000, 0⟩ ∧
      q.OwnerName = "Bea" ∧ q.Species = "cat" ∧ q.Height = 25 ∧ q.Weight = 4 ∧
      q.FavoriteToy = "mouse" ∧ q.Breed = "" ∧
      bsonMarshal q =
        [("_id", .str "client-chosen"), ("name", .str "Tom"), ("dob", .date 864403200000),
         ("owner_name", .str "Bea"), ("species", .str "cat"), ("height", .int32 25),
         ("weight", .int32 4), ("favorite_toy", .str "mouse")] := by
  obtain ⟨q, h0, h1, h2, h3, h4, h5, h6, h7, h8, h9, _, _, h12⟩ :=
    create_inserts_payload_with_breed_default exampleCodec exampleColl [] "tom" tom rfl
      (by decide)
  exact ⟨q, h0, h1, h2, h3, h4, h5, h6, h7, h8, h9, h12⟩

/-- C3, refuted: Rex born one nanosecond after the zero instant passes
validation; the document handed to InsertOne carries the zero date as his date
of birth, which the driver reads back as the zero instant, so the document
does not satisfy the required constraints. -/
theorem create_inserts_zero_date_in_first_millisecond :
    verify (exampleCodec.jsonUnmarshal "rex, born in year one" Pet.zero).1 = "" ∧
    insertedDocs (create exampleCodec exampleColl [] "rex, born in year one").calls =
      [bsonMarshal { rexYearOne with Breed := "unknown" }] ∧
    List.lookup "dob" (bsonMarshal { rexYearOne with Breed := "unknown" }) =
      some (.date (Time.toDateTime ⟨0, 0⟩)) ∧
    (Time.ofDateTime (Time.toDateTime ⟨0, 1⟩)).IsZero = true ∧
    ¬ DocRequired (bsonMarshal { rexYearOne with Breed := "unknown" }) := by
  refine ⟨by decide, by decide, by decide, by decide, ?_⟩
  rintro ⟨_, ms, h1, h2⟩
  have h3 : List.lookup "dob" (bsonMarshal { rexYearOne with Breed := "unknown" }) =
      some (.date (Time.toDateTime ⟨0, 0⟩)) := by decide
  rw [h3] at h1
  injection h1 with h1
  injection h1 with h1
  exact h2 h1.symm

/-- C3, amended. Every document Create hands to InsertOne is the marshalling of
a record that satisfies all required constraints (the breed default never
invalidates a record that passed validation), and a payload that fails
validation reaches no insert. The document carries name, owner_name, species
and favorite_toy non-empty and height and weight strictly positive, and its
date of birth is that of the payload in whole milliseconds: the document
satisfies all required constraints whenever that date of birth is at least a
millisecond away from the zero instant, and carries the zero date when it is
less than a millisecond after it. -/
theorem create_inserted_satisfies_required {σ M : Type} (lib : Codec M)
    (coll : Collection σ M) (s : σ) (body : Bytes) (p : Pet) (d : BsonDoc)
    (hp : (lib.jsonUnmarshal body Pet.zero).1 = p)
    (hd : d ∈ insertedDocs (create lib coll s body).calls) :
    Required p ∧
    (∃ q : Pet, d = bsonMarshal q ∧ Required q ∧ q.Dob = p.Dob) ∧
    DocRequiredExceptDob d ∧
    List.lookup "dob" d = some (.date p.Dob.toDateTime) ∧
    ((p.Dob.sec ≠ 0 ∨ 1000000 ≤ p.Dob.nsec) → p.Dob.nsec < 1000000000 → DocRequired d) ∧
    (p.Dob.sec = 0 → p.Dob.nsec < 1000000 →
      List.lookup "dob" d = some (.date (Time.toDateTime ⟨0, 0⟩))) := by
  subst hp
  by_cases hv : verify (lib.jsonUnmarshal body Pet.zero).1 = ""
  · have hr := (verify_eq_empty_iff _).mp hv
    rw [create_insertedDocs lib coll s body hv] at hd
    have hd2 : d = bsonMarshal (withBreedDefault (lib.jsonUnmarshal body Pet.zero).1) := by
      simpa using hd
    have hq := required_withBreedDefault _ hr
    have hdob : List.lookup "dob"
        (bsonMarshal (withBreedDefault (lib.jsonUnmarshal body Pet.zero).1)) =
        some (.date (lib.jsonUnmarshal body Pet.zero).1.Dob.toDateTime) :=
      lookup_dob_bsonMarshal _ hq
    subst hd2
    refine ⟨hr, ⟨_, rfl, hq, rfl⟩, docRequiredExceptDob_bsonMarshal _ hq, hdob, ?_, ?_⟩
    · intro hfar hn
      exact ⟨docRequiredExceptDob_bsonMarshal _ hq, _, hdob, toDateTime_ne_zero _ hfar hn⟩
    · intro hs hn
      rw [hdob, toDateTime_first_millisecond _ hs hn]
  · rw [create_insertedDocs_rejected lib coll s body hv] at hd
    simp at hd

/-- C3 amended, at the payload of Rex, born long after the zero instant: the
one inserted document satisfies all required constraints. -/
theorem create_inserted_satisfies_required_witness :
    bsonMarshal { rex with Breed := "unknown" } ∈
      insertedDocs (create exampleCodec exampleColl [] "rex").calls ∧
    DocRequired (bsonMarshal { rex with Breed := "unknown" }) :=
  ⟨by decide,
   (create_inserted_satisfies_required exampleCodec exampleColl [] "rex" rex
      (bsonMarshal { rex with Breed := "unknown" }) rfl (by decide)).2.2.2.2.1
      (by decide) (by decide)⟩

theorem lookup_omitEmpty_ne (k key : String) (e : Bool) (v : BVal) (rest : BsonDoc)
    (h : (k == key) = false) :
    List.lookup k (omitEmpty e key v ++ rest) = List.lookup k rest := by
  cases e <;> simp [omitEmpty, List.lookup, h]

theorem lookup_id_bsonMarshal (q : Pet) :
    List.lookup "_id" (bsonMarshal q) = if q.Id = "" then none else some (.str q.Id) := by
  unfold bsonMarshal
  simp only [List.append_assoc]
  by_cases hid : q.Id = ""
  · have h0 : omitEmpty (q.Id == "") "_id" (.str q.Id) = [] := by simp [omitEmpty, hid]
    rw [h0, List.nil_append,
      lookup_omitEmpty_ne _ _ _ _ _ (by decide), lookup_omitEmpty_ne _ _ _ _ _ (by decide),
      lookup_omitEmpty_ne _ _ _ _ _ (by decide), lookup_omitEmpty_ne _ _ _ _ _ (by decide),
      lookup_omitEmpty_ne _ _ _ _ _ (by decide), lookup_omitEmpty_ne _ _ _ _ _ (by decide),
      lookup_omitEmpty_ne _ _ _ _ _ (by decide)]
    cases hb : (q.Breed == "") <;> simp [omitEmpty, List.lookup, hid]
  · simp [omitEmpty, List.lookup, hid]

/-- C6, refuted: Tom is a valid payload sent with the identifier
"client-chosen", and the document handed to InsertOne carries that identifier
in its _id field. -/
theorem create_forwards_client_id :
    Required (exampleCodec.jsonUnmarshal "tom" Pet.zero).1 ∧
    (exampleCodec.jsonUnmarshal "tom" Pet.zero).1.Id = "client-chosen" ∧
    (insertedDocs (create exampleCodec exampleColl [] "tom").calls).map
      (fun d => List.lookup "_id" d) = [some (.str "client-chosen")] := by
  decide

/-- C6, amended: for every accepted Create payload the one document handed to
InsertOne carries the _id of the payload when that is non-empty, and has no
_id field (so that the store assigns the identifier) exactly when the _id of
the payload is empty. -/
theorem create_inserted_id_is_payload_id {σ M : Type} (lib : Codec M)
    (coll : Collection σ M) (s : σ) (body : Bytes)
    (hvalid : Required (lib.jsonUnmarshal body Pet.zero).1) :
    (insertedDocs (create lib coll s body).calls).map (fun d => List.lookup "_id" d) =
      [if (lib.jsonUnmarshal body Pet.zero).1.Id = "" then none
       else some (.str (lib.jsonUnmarshal body Pet.zero).1.Id)] := by
  rw [create_insertedDocs lib coll s body ((verify_eq_empty_iff _).mpr hvalid)]
  simp only [List.map_cons, List.map_nil, lookup_id_bsonMarshal]
  rfl

/-- C6 amended, at the payload of Rex, sent without an identifier: the inserted
document has no _id field. -/
theorem create_inserted_id_is_payload_id_witness :
    (insertedDocs (create exampleCodec exampleColl [] "rex").calls).map
      (fun d => List.lookup "_id" d) = [none] :=
  create_inserted_id_is_payload_id exampleCodec exampleColl [] "rex" (by decide)

/-- C10. For every valid Create payload whose insert succeeds and whose re-read
by the inserted identifier returns an error (a failed find, or no document),
Create responds 200 with the validated payload with the breed default applied;
its identifier is still the one of the payload, not one confirmed by the
store. -/
theorem create_reread_failure_returns_unconfirmed {σ M : Type} (lib : Codec M)
    (coll : Collection σ M) (s s1 : σ) (body : Bytes) (res : InsertOneResult) (e : String)
    (hvalid : Required (lib.jsonUnmarshal body Pet.zero).1)
    (hinsert : coll.InsertOne s
      (bsonMarshal (withBreedDefault (lib.jsonUnmarshal body Pet.zero).1)) = (.ok res, s1))
    (hfind : (coll.FindOne s1 [("_id", res.InsertedID)]).1 = .error e) :
    (create lib coll s body).resp =
      ⟨StatusOK, .pet (withBreedDefault (lib.jsonUnmarshal body Pet.zero).1)⟩ ∧
    (withBreedDefault (lib.jsonUnmarshal body Pet.zero).1).Id =
      (lib.jsonUnmarshal body Pet.zero).1.Id := by
  refine ⟨?_, rfl⟩
  rw [create_accept lib coll s body ((verify_eq_empty_iff _).mpr hvalid)]
  simp only [hinsert, hfind, SingleResult.Decode]

/-- C10, at the payload of Rex on a store whose FindOne is down: the insert
stores Rex under the identifier "a", the response is 200 and its record has
the breed default and an empty identifier. -/
theorem create_reread_failure_returns_unconfirmed_witness :
    (create exampleCodec (outage (fun k => k == .FindOne) "timeout" exampleColl) []
        "rex").resp = ⟨200, .pet { rex with Breed := "unknown" }⟩ :=
  (create_reread_failure_returns_unconfirmed exampleCodec
    (outage (fun k => k == .FindOne) "timeout" exampleColl) []
    [{ rex with Breed := "unknown", Id := "a" }] "rex" ⟨.oid "a"⟩ "timeout"
    (by decide) rfl rfl).1

/-! ## Update -/

theorem update_reject {σ M : Type} [Inhabited M] (lib : Codec M)
    (coll : Collection σ M) (s : σ) (body : Bytes)
    (hlen : (lib.unmarshalExtJSONSlice body []).1.length ≠ 2) :
    update lib coll s body = ⟨⟨StatusBadRequest, .text "Invalid request."⟩, [], s⟩ := by
  simp [update, hlen]

/-- C4. For every Update request whose body leaves anything but exactly two
documents in the decoded sequence (none, one, three or more, or the empty
sequence a failed decode leaves behind), the response is 400 with the text
"Invalid request.", whatever the elements are; no store call is made. -/
theorem update_not_two_elements_invalid_request {σ M : Type} [Inhabited M] (lib : Codec M)
    (coll : Collection σ M) (s : σ) (body : Bytes)
    (hlen : (lib.unmarshalExtJSONSlice body []).1.length ≠ 2) :
    update lib coll s body = ⟨⟨StatusBadRequest, .text "Invalid request."⟩, [], s⟩ :=
  update_reject lib coll s body hlen

/-- C4, at a body that fails to decode, at a one-element body, at a
three-element body and at the empty array. -/
theorem update_not_two_elements_invalid_request_witness :
    (update exampleCodec exampleColl [rex] "garbage").resp =
      ⟨400, .text "Invalid request."⟩ ∧
    (update exampleCodec exampleColl [rex] "one element").resp =
      ⟨400, .text "Invalid request."⟩ ∧
    (update exampleCodec exampleColl [rex] "three elements").resp =
      ⟨400, .text "Invalid request."⟩ ∧
    (update exampleCodec exampleColl [rex] "empty array").resp =
      ⟨400, .text "Invalid request."⟩ :=
  ⟨congrArg Outcome.resp
    (update_not_two_elements_invalid_request exampleCodec exampleColl [rex] "garbage"
      (by decide)),
   congrArg Outcome.resp
    (update_not_two_elements_invalid_request exampleCodec exampleColl [rex] "one element"
      (by decide)),
   congrArg Outcome.resp
    (update_not_two_elements_invalid_request exampleCodec exampleColl [rex] "three elements"
      (by decide)),
   congrArg Outcome.resp
    (update_not_two_elements_invalid_request exampleCodec exampleColl [rex] "empty array"
      (by decide))⟩

theorem update_two_elements {σ M : Type} [Inhabited M] (lib : Codec M)
    (coll : Collection σ M) (s : σ) (body : Bytes) (b0 b1 : M)
    (hb : (lib.unmarshalExtJSONSlice body []).1 = [b0, b1]) :
    update lib coll s body =
      (match coll.UpdateMany s b0 b1 with
       | (.error err, s1) =>
         ⟨⟨StatusInternalServerError, .text err⟩, [⟨.UpdateMany b0 b1, some err⟩], s1⟩
       | (.ok _, s1) =>
         match coll.Find s1 b0 with
         | (.error err, s2) =>
           ⟨⟨StatusInternalServerError, .text err⟩,
             [⟨.UpdateMany b0 b1, none⟩, ⟨.Find b0, some err⟩], s2⟩
         | (.ok cursor, s2) =>
           match cursor.All with
           | .error err =>
             ⟨⟨StatusInternalServerError, .text err⟩,
               [⟨.UpdateMany b0 b1, none⟩, ⟨.Find b0, none⟩, ⟨.All, some err⟩], s2⟩
           | .ok results =>
             ⟨⟨StatusOK, .pets results⟩,
               [⟨.UpdateMany b0 b1, none⟩, ⟨.Find b0, none⟩, ⟨.All, none⟩], s2⟩) := by
  simp [update, hb]

theorem filter_map_update_of_stable (φ : Pet → Bool) (f : Pet → Pet) (s : List Pet)
    (h : ∀ r ∈ s, φ r = true → φ (f r) = true) :
    (s.map (fun r => if φ r then f r else r)).filter φ = (s.filter φ).map f := by
  induction s with
  | nil => rfl
  | cons a s ih =>
    have ih2 := ih (fun r hr => h r (List.mem_cons_of_mem a hr))
    cases ha : φ a with
    | true =>
      have hfa : φ (f a) = true := h a (List.mem_cons_self a s) ha
      simp [List.filter, ha, hfa, ih2]
    | false =>
      simp [List.filter, ha, ih2]

/-- C5. Over the model store, for every two-element Update request
[filter, update]: the update is applied to every record matching the filter
(and to no other), and the 200 response holds exactly the records of the
updated store that match the same filter, in store order. Hence, when every
matching record still matches after the update, the response holds all the
originally matching records, each in its post-update state (so there are as
many as matched); and a record that matched and whose updated state no longer
matches is in the store in its updated state but not in the response. -/
theorem update_model_store_returns_post_update_matches {M : Type} [Inhabited M]
    (lib : Codec M) (matching : M → Pet → Bool) (applying : M → Pet → Pet)
    (s : List Pet) (body : Bytes) (filter upd : M)
    (hb : (lib.unmarshalExtJSONSlice body []).1 = [filter, upd]) :
    (update lib (modelColl matching applying) s body).store =
      s.map (fun r => if matching filter r then applying upd r else r) ∧
    (update lib (modelColl matching applying) s body).resp =
      ⟨StatusOK, .pets
        ((update lib (modelColl matching applying) s body).store.filter (matching filter))⟩ ∧
    ((∀ r ∈ s, matching filter r = true → matching filter (applying upd r) = true) →
      (update lib (modelColl matching applying) s body).resp =
        ⟨StatusOK, .pets ((s.filter (matching filter)).map (applying upd))⟩ ∧
      ((s.filter (matching filter)).map (applying upd)).length =
        (s.filter (matching filter)).length) ∧
    (∀ r ∈ s, matching filter r = true → matching filter (applying upd r) = false →
      applying upd r ∈ (update lib (modelColl matching applying) s body).store ∧
      ∀ results, (update lib (modelColl matching applying) s body).resp.body = .pets results →
        applying upd r ∉ results) := by
  have hrun : update lib (modelColl matching applying) s body =
      ⟨⟨StatusOK, .pets ((s.map (fun r => if matching filter r then applying upd r else r)).filter
          (matching filter))⟩,
        [⟨.UpdateMany filter upd, none⟩, ⟨.Find filter, none⟩, ⟨.All, none⟩],
        s.map (fun r => if matching filter r then applying upd r else r)⟩ := by
    rw [update_two_elements lib _ s body filter upd hb]
    rfl
  rw [hrun]
  refine ⟨rfl, rfl, ?_, ?_⟩
  · intro hstable
    refine ⟨?_, List.length_map _ _⟩
    rw [filter_map_update_of_stable (matching filter) (applying upd) s hstable]
  · intro r hr hm hnm
    refine ⟨?_, ?_⟩
    · exact List.mem_map.mpr ⟨r, hr, by simp [hm]⟩
    · intro results hres hin
      have hres2 : (s.map (fun r => if matching filter r then applying upd r else r)).filter
          (matching filter) = results := by
        simpa using hres
      rw [← hres2] at hin
      have := (List.mem_filter.mp hin).2
      rw [hnm] at this
      exact Bool.false_ne_true this

/-- C5, on a store holding the dog Rex and the cat Tom. Setting the species of
the dogs to "wolf" updates Rex, who then no longer matches the filter: he is
in the store as a wolf and the response is empty. Giving the dogs the breed
"mutt" leaves the filter on the species untouched, and the response holds Rex
in his updated state. -/
theorem update_model_store_returns_post_update_matches_witness :
    (update exampleCodec exampleColl [rex, tom] "dogs become wolves").store =
      [{ rex with Species := "wolf" }, tom] ∧
    (update exampleCodec exampleColl [rex, tom] "dogs become wolves").resp =
      ⟨200, .pets []⟩ ∧
    { rex with Species := "wolf" } ∈
      (update exampleCodec exampleColl [rex, tom] "dogs become wolves").store ∧
    (update exampleCodec exampleColl [rex, tom] "dogs become mutts").resp =
      ⟨200, .pets [{ rex with Breed := "mutt" }]⟩ :=
  ⟨(update_model_store_returns_post_update_matches exampleCodec Doc.matching Doc.applying
      [rex, tom] "dogs become wolves" (.species "dog") (.setSpecies "wolf") rfl).1,
   (update_model_store_returns_post_update_matches exampleCodec Doc.matching Doc.applying
      [rex, tom] "dogs become wolves" (.species "dog") (.setSpecies "wolf") rfl).2.1,
   ((update_model_store_returns_post_update_matches exampleCodec Doc.matching Doc.applying
      [rex, tom] "dogs become wolves" (.species "dog") (.setSpecies "wolf") rfl).2.2.2
      rex (by decide) rfl rfl).1,
   ((update_model_store_returns_post_update_matches exampleCodec Doc.matching Doc.applying
      [rex, tom] "dogs become mutts" (.species "dog") (.setBreed "mutt") rfl).2.2.1
      (by decide)).1⟩

/-! ## Store failures -/

/-- C7, refuted: on a store whose FindOne is down, Create of Rex makes two
store calls, the second of which (the re-read) fails with "timeout", and the
response is 200 with a record, not 500 with that text. -/
theorem create_reread_failure_not_500 :
    (create exampleCodec (outage (fun k => k == .FindOne) "timeout" exampleColl) []
      "rex").calls.map (fun c => (c.op.kind, c.err)) =
      [(.InsertOne, none), (.FindOne, some "timeout")] ∧
    (create exampleCodec (outage (fun k => k == .FindOne) "timeout" exampleColl) []
      "rex").resp = ⟨200, .pet { rex with Breed := "unknown" }⟩ := by
  decide

/-- C7, amended: whenever a Find, cursor.All, InsertOne, UpdateMany or
DeleteMany call made while handling a Read, Create, Update or Delete request
fails, the response is 500 and its body is the raw error text of that
failure; the re-read of Create (FindOne and Decode) is the one store call
whose failure is ignored: a run that reaches it responds 200. -/
theorem store_failure_gives_500_except_reread {σ M : Type} [Inhabited M] (lib : Codec M)
    (coll : Collection σ M) (m : Method) (s : σ) (body : Bytes) (c : StoreCall M)
    (hc : c ∈ (serve lib coll m s body).calls) :
    (c.op.kind ≠ .FindOne → ∀ e, c.err = some e →
      (serve lib coll m s body).resp = ⟨StatusInternalServerError, .text e⟩) ∧
    (c.op.kind = .FindOne → (serve lib coll m s body).resp.status = StatusOK) := by
  cases m with
  | GET =>
    simp only [serve, read] at hc ⊢
    rcases hf : coll.Find s (lib.unmarshalExtJSON body default).1 with ⟨r, s1⟩
    rw [hf] at hc
    cases r with
    | error err =>
      simp only [List.mem_singleton] at hc
      subst hc
      simp [Op.kind]
    | ok cursor =>
      cases ha : cursor.All with
      | error err =>
        simp only [ha, List.mem_cons, List.mem_singleton, List.not_mem_nil, or_false] at hc
        rcases hc with hc | hc <;> subst hc <;> simp [Op.kind, ha]
      | ok results =>
        simp only [ha, List.mem_cons, List.mem_singleton, List.not_mem_nil, or_false] at hc
        rcases hc with hc | hc <;> subst hc <;> simp [Op.kind, ha]
  | POST =>
    simp only [serve] at hc ⊢
    by_cases hv : verify (lib.jsonUnmarshal body Pet.zero).1 = ""
    · rw [create_accept lib coll s body hv] at hc ⊢
      dsimp only at hc ⊢
      rcases hi : coll.InsertOne s
        (bsonMarshal (withBreedDefault (lib.jsonUnmarshal body Pet.zero).1)) with ⟨r, s1⟩
      rw [hi] at hc
      cases r with
      | error err =>
        simp only [List.mem_singleton] at hc
        subst hc
        simp [Op.kind]
      | ok res =>
        simp only [List.mem_cons, List.mem_singleton, List.not_mem_nil, or_false] at hc
        rcases hc with hc | hc <;> subst hc <;> simp [Op.kind]
    · rw [create_reject lib coll s body hv] at hc
      simp at hc
  | PATCH =>
    simp only [serve] at hc ⊢
    by_cases hlen : (lib.unmarshalExtJSONSlice body []).1.length = 2
    · obtain ⟨b0, b1, hb⟩ := List.length_eq_two.mp hlen
      rw [update_two_elements lib coll s body b0 b1 hb] at hc ⊢
      rcases hu : coll.UpdateMany s b0 b1 with ⟨r, s1⟩
      rw [hu] at hc
      cases r with
      | error err =>
        simp only [List.mem_singleton] at hc
        subst hc
        simp [Op.kind]
      | ok ur =>
        simp only at hc ⊢
        rcases hf : coll.Find s1 b0 with ⟨r2, s2⟩
        rw [hf] at hc
        cases r2 with
        | error err =>
          simp only [List.mem_cons, List.mem_singleton, List.not_mem_nil, or_false] at hc
          rcases hc with hc | hc <;> subst hc <;> simp [Op.kind]
        | ok cursor =>
          cases ha : cursor.All with
          | error err =>
            simp only [ha, List.mem_cons, List.mem_singleton, List.not_mem_nil,
              or_false] at hc
            rcases hc with hc | hc | hc <;> subst hc <;> simp [Op.kind, ha]
          | ok results =>
            simp only [ha, List.mem_cons, List.mem_singleton, List.not_mem_nil,
              or_false] at hc
            rcases hc with hc | hc | hc <;> subst hc <;> simp [Op.kind, ha]
    · rw [update_reject lib coll s body hlen] at hc
      simp at hc
  | DELETE =>
    simp only [serve, delete] at hc ⊢
    rcases hd : coll.DeleteMany s (lib.unmarshalExtJSON body default).1 with ⟨r, s1⟩
    rw [hd] at hc
    cases r with
    | error err =>
      simp only [List.mem_singleton] at hc
      subst hc
      simp [Op.kind]
    | ok res =>
      simp only [List.mem_singleton] at hc
      subst hc
      simp [Op.kind]

/-- C7 amended, on stores with an outage: a failed InsertOne in Create, a
failed cursor.All in Read, a failed Find after a successful UpdateMany in
Update and a failed DeleteMany in Delete each give 500 with the error text;
a failed re-read in Create gives 200. -/
theorem store_failure_gives_500_except_reread_witness :
    (serve exampleCodec (outage (fun k => k == .InsertOne) "timeout" exampleColl)
      .POST [] "rex").resp = ⟨500, .text "timeout"⟩ ∧
    (serve exampleCodec (outage (fun k => k == .All) "cursor closed" exampleColl)
      .GET [rex] "dogs").resp = ⟨500, .text "cursor closed"⟩ ∧
    (serve exampleCodec (outage (fun k => k == .Find) "timeout" exampleColl)
      .PATCH [rex] "dogs become mutts").resp = ⟨500, .text "timeout"⟩ ∧
    (serve exampleCodec (outage (fun k => k == .DeleteMany) "not primary" exampleColl)
      .DELETE [rex] "dogs").resp = ⟨500, .text "not primary"⟩ ∧
    (serve exampleCodec (outage (fun k => k == .FindOne) "timeout" exampleColl)
      .POST [] "rex").resp.status = 200 :=
  ⟨(store_failure_gives_500_except_reread exampleCodec
      (outage (fun k => k == .InsertOne) "timeout" exampleColl) .POST [] "rex"
      ⟨.InsertOne (bsonMarshal { rex with Breed := "unknown" }), some "timeout"⟩
      (List.Mem.head _)).1 (by decide) "timeout" rfl,
   (store_failure_gives_500_except_reread exampleCodec
      (outage (fun k => k == .All) "cursor closed" exampleColl) .GET [rex] "dogs"
      ⟨.All, some "cursor closed"⟩ (List.Mem.tail _ (List.Mem.head _))).1 (by decide)
      "cursor closed" rfl,
   (store_failure_gives_500_except_reread exampleCodec
      (outage (fun k => k == .Find) "timeout" exampleColl) .PATCH [rex] "dogs become mutts"
      ⟨.Find (.species "dog"), some "timeout"⟩ (List.Mem.tail _ (List.Mem.head _))).1
      (by decide) "timeout" rfl,
   (store_failure_gives_500_except_reread exampleCodec
      (outage (fun k => k == .DeleteMany) "not primary" exampleColl) .DELETE [rex] "dogs"
      ⟨.DeleteMany (.species "dog"), some "not primary"⟩ (List.Mem.head _)).1 (by decide)
      "not primary" rfl,
   (store_failure_gives_500_except_reread exampleCodec
      (outage (fun k => k == .FindOne) "timeout" exampleColl) .POST [] "rex"
      ⟨.FindOne [("_id", .oid "a")], some "timeout"⟩
      (List.Mem.tail _ (List.Mem.head _))).2 rfl⟩

/-! ## Unparsable bodies -/

/-- C8, refuted: the body "garbage" does not parse, the decoder returns an
error and leaves the zero-value record (for Update, the empty sequence), and
the responses of Create and of Update are client errors, HTTP 400. -/
theorem unparsable_body_can_give_400 :
    exampleCodec.jsonUnmarshal "garbage" Pet.zero = (Pet.zero, some "invalid character") ∧
    (create exampleCodec exampleColl [rex] "garbage").resp =
      ⟨400, .text "Missing or invalid field: name"⟩ ∧
    exampleCodec.unmarshalExtJSONSlice "garbage" [] = ([], some "invalid JSON input") ∧
    (update exampleCodec exampleColl [rex] "garbage").resp =
      ⟨400, .text "Invalid request."⟩ := by
  decide

theorem create_congr {σ M : Type} (lib : Codec M) (coll : Collection σ M) (s : σ)
    (body body2 : Bytes)
    (h : (lib.jsonUnmarshal body Pet.zero).1 = (lib.jsonUnmarshal body2 Pet.zero).1) :
    create lib coll s body = create lib coll s body2 := by
  simp only [create, h]

theorem read_congr {σ M : Type} [Inhabited M] (lib : Codec M) (coll : Collection σ M) (s : σ)
    (body body2 : Bytes)
    (h : (lib.unmarshalExtJSON body default).1 = (lib.unmarshalExtJSON body2 default).1) :
    read lib coll s body = read lib coll s body2 := by
  simp only [read, h]

theorem delete_congr {σ M : Type} [Inhabited M] (lib : Codec M) (coll : Collection σ M)
    (s : σ) (body body2 : Bytes)
    (h : (lib.unmarshalExtJSON body default).1 = (lib.unmarshalExtJSON body2 default).1) :
    delete lib coll s body = delete lib coll s body2 := by
  simp only [delete, h]

theorem update_congr {σ M : Type} [Inhabited M] (lib : Codec M) (coll : Collection σ M)
    (s : σ) (body body2 : Bytes)
    (h : (lib.unmarshalExtJSONSlice body []).1 = (lib.unmarshalExtJSONSlice body2 []).1) :
    update lib coll s body = update lib coll s body2 := by
  simp only [update, h]

theorem read_status_ne_400 {σ M : Type} [Inhabited M] (lib : Codec M)
    (coll : Collection σ M) (s : σ) (body : Bytes) :
    (read lib coll s body).resp.status ≠ StatusBadRequest := by
  simp only [read]
  rcases coll.Find s (lib.unmarshalExtJSON body default).1 with ⟨r, s1⟩
  cases r with
  | error err => simp [StatusBadRequest, StatusInternalServerError]
  | ok cursor =>
    cases ha : cursor.All <;>
      simp [ha, StatusBadRequest, StatusInternalServerError, StatusOK]

theorem delete_status_ne_400 {σ M : Type} [Inhabited M] (lib : Codec M)
    (coll : Collection σ M) (s : σ) (body : Bytes) :
    (delete lib coll s body).resp.status ≠ StatusBadRequest := by
  simp only [delete]
  rcases coll.DeleteMany s (lib.unmarshalExtJSON body default).1 with ⟨r, s1⟩
  cases r <;> simp [StatusBadRequest, StatusInternalServerError, StatusOK]

theorem create_silent {σ M : Type} (lib : Codec M) (coll : Collection σ M) (s : σ)
    (body : Bytes) : create lib coll s body = create lib.silent coll s body := rfl

theorem read_silent {σ M : Type} [Inhabited M] (lib : Codec M) (coll : Collection σ M)
    (s : σ) (body : Bytes) : read lib coll s body = read lib.silent coll s body := rfl

theorem update_silent {σ M : Type} [Inhabited M] (lib : Codec M) (coll : Collection σ M)
    (s : σ) (body : Bytes) : update lib coll s body = update lib.silent coll s body := rfl

theorem delete_silent {σ M : Type} [Inhabited M] (lib : Codec M) (coll : Collection σ M)
    (s : σ) (body : Bytes) : delete lib coll s body = delete lib.silent coll s body := rfl

/-- C8, amended: the error of the body decoder is ignored. Every handler runs
exactly as with a decoder that reports no error, on the value the decoder
left in the target variable, whatever that value is (the zero value, or a
partly filled record, filter or sequence): two bodies that leave the same
value give the same run. Read and Delete never answer 400. Create and Update
answer 400 when the value left fails their own test: for the zero-value
record Create answers 400 with "Missing or invalid field: name", and for a
sequence of other than two elements, the empty one included, Update answers
400 with "Invalid request." -/
theorem parse_failure_ignored {σ M : Type} [Inhabited M] (lib : Codec M)
    (coll : Collection σ M) (s : σ) (body : Bytes) :
    (create lib coll s body = create lib.silent coll s body ∧
      read lib coll s body = read lib.silent coll s body ∧
      update lib coll s body = update lib.silent coll s body ∧
      delete lib coll s body = delete lib.silent coll s body) ∧
    (∀ body2, (lib.jsonUnmarshal body2 Pet.zero).1 = (lib.jsonUnmarshal body Pet.zero).1 →
      create lib coll s body = create lib coll s body2) ∧
    (∀ body2, (lib.unmarshalExtJSON body2 default).1 = (lib.unmarshalExtJSON body default).1 →
      read lib coll s body = read lib coll s body2 ∧
      delete lib coll s body = delete lib coll s body2) ∧
    (∀ body2,
      (lib.unmarshalExtJSONSlice body2 []).1 = (lib.unmarshalExtJSONSlice body []).1 →
      update lib coll s body = update lib coll s body2) ∧
    (read lib coll s body).resp.status ≠ StatusBadRequest ∧
    (delete lib coll s body).resp.status ≠ StatusBadRequest ∧
    ((lib.jsonUnmarshal body Pet.zero).1 = Pet.zero →
      create lib coll s body =
        ⟨⟨StatusBadRequest, .text "Missing or invalid field: name"⟩, [], s⟩) ∧
    ((lib.unmarshalExtJSONSlice body []).1.length ≠ 2 →
      update lib coll s body = ⟨⟨StatusBadRequest, .text "Invalid request."⟩, [], s⟩) := by
  refine ⟨⟨create_silent lib coll s body, read_silent lib coll s body,
    update_silent lib coll s body, delete_silent lib coll s body⟩,
    fun body2 h => create_congr lib coll s body body2 h.symm,
    fun body2 h => ⟨read_congr lib coll s body body2 h.symm,
      delete_congr lib coll s body body2 h.symm⟩,
    fun body2 h => update_congr lib coll s body body2 h.symm,
    read_status_ne_400 lib coll s body, delete_status_ne_400 lib coll s body, ?_, ?_⟩
  · intro h1
    have hv : verify (lib.jsonUnmarshal body Pet.zero).1 = "name" := by rw [h1]; rfl
    have hne : verify (lib.jsonUnmarshal body Pet.zero).1 ≠ "" := by rw [hv]; decide
    rw [create_reject lib coll s body hne, hv]
    rfl
  · intro hlen
    exact update_reject lib coll s body hlen

/-- C8 amended, at bodies that do not parse. With the example codec, which
leaves the variable untouched, "garbage" runs Create as the empty object
does, with a 400, Read as the filter of everything does, and Update as the
empty array does, with a 400. With the codec that fails part-way, a record
whose height is a text runs Create as the record without height does, a
truncated filter of the dogs runs Read and Delete as the filter of the dogs
does, and a truncated two-element array runs Update as the whole array
does. -/
theorem parse_failure_ignored_witness :
    (create exampleCodec exampleColl [rex] "garbage" =
        create exampleCodec exampleColl [rex] "empty object" ∧
      (create exampleCodec exampleColl [rex] "garbage").resp =
        ⟨400, .text "Missing or invalid field: name"⟩) ∧
    (read exampleCodec exampleColl [rex] "garbage" =
        read exampleCodec exampleColl [rex] "all" ∧
      (read exampleCodec exampleColl [rex] "garbage").resp.status ≠ 400) ∧
    (update exampleCodec exampleColl [rex] "garbage" =
        update exampleCodec exampleColl [rex] "empty array" ∧
      (update exampleCodec exampleColl [rex] "garbage").resp =
        ⟨400, .text "Invalid request."⟩) ∧
    create partialCodec exampleColl [] "rex, height as text" =
      create partialCodec exampleColl [] "rex without height" ∧
    (read partialCodec exampleColl [rex, tom] "dogs, truncated" =
        read partialCodec exampleColl [rex, tom] "dogs" ∧
      delete partialCodec exampleColl [rex, tom] "dogs, truncated" =
        delete partialCodec exampleColl [rex, tom] "dogs") ∧
    update partialCodec exampleColl [rex, tom] "dogs become mutts, truncated" =
      update partialCodec exampleColl [rex, tom] "dogs become mutts" :=
  have hg := parse_failure_ignored exampleCodec exampleColl [rex] "garbage"
  ⟨⟨hg.2.1 "empty object" rfl, congrArg Outcome.resp (hg.2.2.2.2.2.2.1 rfl)⟩,
   ⟨(hg.2.2.1 "all" rfl).1, hg.2.2.2.2.1⟩,
   ⟨hg.2.2.2.1 "empty array" rfl, congrArg Outcome.resp (hg.2.2.2.2.2.2.2 (by decide))⟩,
   (parse_failure_ignored partialCodec exampleColl [] "rex, height as text").2.1
     "rex without height" rfl,
   (parse_failure_ignored partialCodec exampleColl [rex, tom] "dogs, truncated").2.2.1
     "dogs" rfl,
   (parse_failure_ignored partialCodec exampleColl [rex, tom]
     "dogs become mutts, truncated").2.2.2.1 "dogs become mutts" rfl⟩

end PetBook
